import Mathlib

/-!
# Verification of the crypto_engine scoring and backtesting core

A shallow embedding, over `ℚ`, of the scoring engine (`analyzer.py`,
`enhanced_analyzer.py`) and of the backtesting framework (`backtester.py`).
Python floats are modelled as rational numbers; Python's `None` as `Option`;
a division whose denominator may be zero (and which Python would turn into a
`ZeroDivisionError`) is modelled by `safeDiv : ℚ → ℚ → Option ℚ`, while a
division that is syntactically guarded in the source (`a / b if b > 0 else c`)
keeps the guard and is modelled with total division on the guarded branch.
-/

namespace CryptoEngine

/-- A normalized dataframe row, as produced by `_prepare_dataframe`:
the numeric market fields consumed by the indicator calculators. -/
structure NormRow where
  percentChange1h : ℚ
  percentChange24h : ℚ
  percentChange7d : ℚ
  volumeChange24h : ℚ
  volume24h : ℚ
  marketCap : ℚ
deriving DecidableEq

/-! ## `CryptoAnalyzer._calculate_unusual_volume_score` (analyzer.py 104-140)

The Python body mutates `score` in two phases: an `if/elif` ladder of
volume-spike bonuses (all of which require `volume_change` above 10), then an
`if/elif` pair of volume-decline deductions, and finally clamps with
`max(0, min(score, 100))`.  We split the body into the spike bonus and the
deduction, whose difference is the pre-clamp score. -/

/-- The bonus accumulated by the first `if/elif` ladder of
`_calculate_unusual_volume_score`. -/
def unusualVolumeSpike (r : NormRow) : ℚ :=
  if r.volumeChange24h > 200 ∧ r.percentChange24h > 10 then 100
  else if r.volumeChange24h > 200 ∧ r.percentChange24h > 0 then 60
  else if r.volumeChange24h > 200 ∧ r.percentChange24h < 0 then 20
  else if r.volumeChange24h > 100 ∧ r.percentChange24h > 10 then 80
  else if r.volumeChange24h > 50 ∧ r.percentChange24h > 10 then 60
  else if r.volumeChange24h > 50 ∧ r.percentChange24h > 5 then 50
  else if r.volumeChange24h > 10 ∧ r.percentChange24h > 10 then 40
  else 0

/-- The amount subtracted by the second (`if/elif`) phase of
`_calculate_unusual_volume_score`: 30 when `volume_change < -30` and
`price_change > 0`, otherwise (`elif`) 50 when `volume_change < -50`. -/
def unusualVolumeDeduction (r : NormRow) : ℚ :=
  if r.volumeChange24h < -30 ∧ r.percentChange24h > 0 then 30
  else if r.volumeChange24h < -50 then 50
  else 0

/-- `_calculate_unusual_volume_score`: spike bonus minus deduction, clamped
by `max(0, min(score, 100))`. -/
def unusualVolumeScore (r : NormRow) : ℚ :=
  max 0 (min (unusualVolumeSpike r - unusualVolumeDeduction r) 100)

/-- Modelled from the spec: the deduction phase with the two deductions
applied independently of each other ("Independently, subtract 30 if volume
change <−30% and price change >0; subtract 50 if volume change <−50%"),
so both are subtracted together when both conditions hold. -/
def unusualVolumeDeductionIndep (r : NormRow) : ℚ :=
  (if r.volumeChange24h < -30 ∧ r.percentChange24h > 0 then 30 else 0) +
  (if r.volumeChange24h < -50 then 50 else 0)

/-- Modelled from the spec: the unusual-volume score with independent
deductions, clamped to `[0, 100]`. -/
def unusualVolumeScoreIndep (r : NormRow) : ℚ :=
  max 0 (min (unusualVolumeSpike r - unusualVolumeDeductionIndep r) 100)

/-- A row whose volume declined 60% while its price rose 5%:
both deduction conditions hold. -/
def decliningVolumeRow : NormRow :=
  { percentChange1h := 0, percentChange24h := 5, percentChange7d := 0
    volumeChange24h := -60, volume24h := 1000, marketCap := 1000000 }

/-! ## `_calculate_volume_activity_score` (analyzer.py 142-167 and
enhanced_analyzer.py 418-439)

Both versions compute a base value from the volume/market-cap ratio and then
scale it by a volume-change multiplier; the analyzer.py version has one extra
multiplier branch (`volume_change > 10` → `×1.15`) that the enhanced version
lacks. -/

/-- The base value of the volume-activity score, from the volume/market-cap
ratio (`volume_ratio = volume_24h / market_cap if market_cap > 0 else 0`). -/
def volumeActivityBase (r : NormRow) : ℚ :=
  let volumeRatio := if r.marketCap > 0 then r.volume24h / r.marketCap else 0
  if volumeRatio ≥ 15/100 then 100
  else if volumeRatio ≥ 5/100 then 60
  else 30

/-- `CryptoAnalyzer._calculate_volume_activity_score` (analyzer.py):
base value scaled by the volume-change ladder (including the `> 10 → ×1.15`
branch), capped at 150. -/
def volumeActivityScore (r : NormRow) : ℚ :=
  let baseScore := volumeActivityBase r
  let baseScore :=
    if r.volumeChange24h > 100 then baseScore * 2
    else if r.volumeChange24h > 50 then baseScore * (16/10)
    else if r.volumeChange24h > 20 then baseScore * (13/10)
    else if r.volumeChange24h > 10 then baseScore * (115/100)
    else if r.volumeChange24h < -40 then baseScore * (6/10)
    else baseScore
  min baseScore 150

/-- `EnhancedCryptoAnalyzer._calculate_volume_activity_score`
(enhanced_analyzer.py): same ladder but without the `×1.15` branch. -/
def volumeActivityScoreEnh (r : NormRow) : ℚ :=
  let baseScore := volumeActivityBase r
  let baseScore :=
    if r.volumeChange24h > 100 then baseScore * 2
    else if r.volumeChange24h > 50 then baseScore * (16/10)
    else if r.volumeChange24h > 20 then baseScore * (13/10)
    else if r.volumeChange24h < -40 then baseScore * (6/10)
    else baseScore
  min baseScore 150

/-- Modelled from the spec: the volume-change multiplier listed in the spec
(">100% change → ×2.0; >50% → ×1.6; >20% → ×1.3; <−40% → ×0.6; otherwise
×1"), which assigns ×1 to every volume change in the interval `(10, 20]`. -/
def volumeMultiplierSpec (vc : ℚ) : ℚ :=
  if vc > 100 then 2
  else if vc > 50 then 16/10
  else if vc > 20 then 13/10
  else if vc < -40 then 6/10
  else 1

/-- A row with volume change 15 (inside `(10, 20]`) and a small
volume/market-cap ratio, so the base value is 30. -/
def midVolumeChangeRow : NormRow :=
  { percentChange1h := 0, percentChange24h := 0, percentChange7d := 0
    volumeChange24h := 15, volume24h := 1000, marketCap := 1000000 }

/-! ## Legacy composite score (analyzer.py 285-293) -/

/-- `CryptoAnalyzer.calculate_scores`: the legacy composite score as the fixed
weighted sum of the seven legacy sub-scores, with weights
0.25, 0.20, 0.15, 0.15, 0.15, 0.05, 0.05. -/
def compositeScore (unusualVolume momentum trendStrength volumeActivity
    marketCapRisk volatility rsiLike : ℚ) : ℚ :=
  unusualVolume * (25/100) + momentum * (20/100) + trendStrength * (15/100) +
    volumeActivity * (15/100) + marketCapRisk * (15/100) +
    volatility * (5/100) + rsiLike * (5/100)

/-! ## Enhanced composite score (enhanced_analyzer.py 372-391) -/

/-- `EnhancedCryptoAnalyzer.calculate_comprehensive_scores`: the enhanced
composite score: weighted sum of the eight enhanced sub-scores times the
wash-trading penalty factor `(1 - wash_confidence / 100 * 0.7)`. -/
def enhancedCompositeScore (rsi macd bollinger correlation momentum
    volumeActivity marketCapRisk volatility washConfidence : ℚ) : ℚ :=
  (rsi * (15/100) + macd * (15/100) + bollinger * (10/100) +
    correlation * (15/100) + momentum * (15/100) + volumeActivity * (15/100) +
    marketCapRisk * (10/100) + volatility * (5/100)) *
  (1 - washConfidence / 100 * (7/10))

/-! ## Theorems for the unusual-volume deductions (C2) -/

/-- Every branch of the spike ladder requires a volume change above 10, so a
row in deduction territory has spike bonus 0. -/
theorem unusualVolumeSpike_eq_zero {r : NormRow} (h : r.volumeChange24h < -30) :
    unusualVolumeSpike r = 0 := by
  have h10 : ¬(r.volumeChange24h > 10) := by linarith
  have h50 : ¬(r.volumeChange24h > 50) := by linarith
  have h100 : ¬(r.volumeChange24h > 100) := by linarith
  have h200 : ¬(r.volumeChange24h > 200) := by linarith
  simp [unusualVolumeSpike, h10, h50, h100, h200]

/-- C2 (counterexample): on a row with volume change −60 and price change +5
the code subtracts only 30 (the `elif` never fires), not the 30 + 50 = 80 that
independent application would subtract, so the pre-clamp score is −30, not
−80. -/
theorem unusualVolume_deductions_not_independent :
    unusualVolumeDeduction decliningVolumeRow = 30 ∧
    unusualVolumeDeductionIndep decliningVolumeRow = 80 ∧
    unusualVolumeSpike decliningVolumeRow -
      unusualVolumeDeduction decliningVolumeRow = -30 := by
  refine ⟨?_, ?_, ?_⟩ <;>
    norm_num [unusualVolumeDeduction, unusualVolumeDeductionIndep,
      unusualVolumeSpike, decliningVolumeRow]

/-- C2 (amended): the two deductions are mutually exclusive (`if/elif`): when
volume change < −50 and price change > 0 only 30 is subtracted.  Nevertheless,
because every spike bonus requires volume change > 10, the score entering the
deduction phase is 0 whenever a deduction fires, so after the clamp to
`[0,100]` the code's score coincides with the independent-deduction score on
every row. -/
theorem unusualVolume_deduction_exclusive_clamped_agree (r : NormRow) :
    (r.volumeChange24h < -50 ∧ r.percentChange24h > 0 →
      unusualVolumeDeduction r = 30) ∧
    unusualVolumeScore r = unusualVolumeScoreIndep r := by
  constructor
  · rintro ⟨h1, h2⟩
    unfold unusualVolumeDeduction
    rw [if_pos ⟨by linarith, h2⟩]
  · by_cases hv : r.volumeChange24h < -30
    · have hs := unusualVolumeSpike_eq_zero hv
      have hd1 : 0 ≤ unusualVolumeDeduction r := by
        unfold unusualVolumeDeduction
        split_ifs <;> norm_num
      have hd2 : 0 ≤ unusualVolumeDeductionIndep r := by
        unfold unusualVolumeDeductionIndep
        split_ifs <;> norm_num
      unfold unusualVolumeScore unusualVolumeScoreIndep
      rw [hs]
      have e1 : min (0 - unusualVolumeDeduction r) 100 ≤ 0 :=
        le_trans (min_le_left _ _) (by linarith)
      have e2 : min (0 - unusualVolumeDeductionIndep r) 100 ≤ 0 :=
        le_trans (min_le_left _ _) (by linarith)
      rw [max_eq_left e1, max_eq_left e2]
    · have h30 : ¬(r.volumeChange24h < -30 ∧ r.percentChange24h > 0) :=
        fun hc => hv hc.1
      have h50 : ¬(r.volumeChange24h < -50) := fun hc => hv (by linarith)
      have hd : unusualVolumeDeduction r = unusualVolumeDeductionIndep r := by
        simp [unusualVolumeDeduction, unusualVolumeDeductionIndep, h30, h50]
      unfold unusualVolumeScore unusualVolumeScoreIndep
      rw [hd]

/-- C2 witness: concrete instance of the amended statement, on the row where
both deduction conditions hold. -/
theorem unusualVolume_deduction_exclusive_witness :
    unusualVolumeDeduction decliningVolumeRow = 30 ∧
    unusualVolumeScore decliningVolumeRow =
      unusualVolumeScoreIndep decliningVolumeRow :=
  ⟨(unusualVolume_deduction_exclusive_clamped_agree decliningVolumeRow).1
      (by constructor <;> norm_num [decliningVolumeRow]),
    (unusualVolume_deduction_exclusive_clamped_agree decliningVolumeRow).2⟩

/-! ## Theorems for the volume-activity multiplier (C3) -/

/-- C3 (counterexample): on a row with volume change 15 ∈ (10, 20] and base
value 30, analyzer.py multiplies by 1.15 and returns 34.5, not the base × 1 =
30 that the claim's multiplier table prescribes. -/
theorem volumeActivity_midband_multiplier_counterexample :
    volumeActivityScore midVolumeChangeRow = 69/2 ∧
    volumeActivityScore midVolumeChangeRow ≠
      min (volumeActivityBase midVolumeChangeRow *
        volumeMultiplierSpec midVolumeChangeRow.volumeChange24h) 150 := by
  constructor <;>
    norm_num [volumeActivityScore, volumeActivityBase, volumeMultiplierSpec,
      midVolumeChangeRow, min_def]

/-- C3 (amended): the enhanced analyzer's volume-activity score is exactly the
claimed base × multiplier capped at 150, with multiplier ×1 on (10, 20]; the
legacy analyzer agrees except that it additionally multiplies by 1.15 when the
volume change lies in (10, 20]. -/
theorem volumeActivity_multiplier_decomposition (r : NormRow) :
    volumeActivityScoreEnh r =
      min (volumeActivityBase r *
        volumeMultiplierSpec r.volumeChange24h) 150 ∧
    volumeActivityScore r =
      min (volumeActivityBase r * volumeMultiplierSpec r.volumeChange24h *
        (if 10 < r.volumeChange24h then
          if r.volumeChange24h ≤ 20 then 115/100 else 1
         else 1)) 150 := by
  constructor <;>
    simp only [volumeActivityScore, volumeActivityScoreEnh,
      volumeMultiplierSpec] <;>
    split_ifs <;>
    first
      | rfl
      | (exfalso; linarith)
      | (congr 1; ring)

/-! ## Theorems for the legacy composite weights (C4) -/

/-- C4: the legacy composite score is 0 when all seven sub-scores are 0 and
exactly 100 when all seven are 100, because the legacy weights
0.25, 0.20, 0.15, 0.15, 0.15, 0.05, 0.05 sum to 1. -/
theorem compositeScore_weights_sum_to_one :
    compositeScore 0 0 0 0 0 0 0 = 0 ∧
    compositeScore 100 100 100 100 100 100 100 = 100 ∧
    (25/100 + 20/100 + 15/100 + 15/100 + 15/100 + 5/100 + 5/100 : ℚ) = 1 := by
  refine ⟨?_, ?_, ?_⟩ <;> norm_num [compositeScore]

/-! ## Theorems for the wash-trading penalty (C5) -/

/-- C5: with the eight enhanced sub-scores held fixed (and non-negative, as
every enhanced sub-score is), the enhanced composite score is monotonically
non-increasing in the wash-trading confidence on `[0, 100]`. -/
theorem enhancedComposite_antitone_in_washConfidence
    (rsi macd bollinger correlation momentum volumeActivity marketCapRisk
      volatility c₁ c₂ : ℚ)
    (hrsi : 0 ≤ rsi) (hmacd : 0 ≤ macd) (hboll : 0 ≤ bollinger)
    (hcorr : 0 ≤ correlation) (hmom : 0 ≤ momentum) (hva : 0 ≤ volumeActivity)
    (hmcr : 0 ≤ marketCapRisk) (hvol : 0 ≤ volatility)
    (hc₀ : 0 ≤ c₁) (hc : c₁ ≤ c₂) (hc₂ : c₂ ≤ 100) :
    enhancedCompositeScore rsi macd bollinger correlation momentum
      volumeActivity marketCapRisk volatility c₂ ≤
    enhancedCompositeScore rsi macd bollinger correlation momentum
      volumeActivity marketCapRisk volatility c₁ := by
  unfold enhancedCompositeScore
  have hS : 0 ≤ rsi * (15/100) + macd * (15/100) + bollinger * (10/100) +
      correlation * (15/100) + momentum * (15/100) +
      volumeActivity * (15/100) + marketCapRisk * (10/100) +
      volatility * (5/100) := by linarith
  nlinarith [mul_nonneg hS (sub_nonneg.mpr hc)]

/-- C5 witness: raising the wash confidence from 0 to 100 with all sub-scores
at 50 does not increase the enhanced composite score. -/
theorem enhancedComposite_antitone_witness :
    enhancedCompositeScore 50 50 50 50 50 50 50 50 100 ≤
    enhancedCompositeScore 50 50 50 50 50 50 50 50 0 :=
  enhancedComposite_antitone_in_washConfidence 50 50 50 50 50 50 50 50 0 100
    (by norm_num) (by norm_num) (by norm_num) (by norm_num) (by norm_num)
    (by norm_num) (by norm_num) (by norm_num) (by norm_num) (by norm_num)
    (by norm_num)

/-! ## backtester.py: trades

`Trade` (backtester.py 18-48): exit fields are `None` until the trade is
closed.  Timestamps are modelled as rational numbers of hours, so a trade
duration in hours is `exit_time - entry_time`. -/

/-- A single trade (`Trade.__init__`). -/
structure Trade where
  symbol : String
  entryPrice : ℚ
  entryTime : ℚ
  positionSize : ℚ
  stopLoss : ℚ
  takeProfit : ℚ
  exitPrice : Option ℚ := none
  exitTime : Option ℚ := none
  exitReason : Option String := none
  profitLoss : Option ℚ := none
  profitLossPct : Option ℚ := none
deriving DecidableEq

/-- `Trade.is_open`: a trade with unset exit price is open. -/
def Trade.isOpen (t : Trade) : Bool := t.exitPrice.isNone

/-- The realized profit/loss the metric code reads off a closed trade
(`t.profit_loss`); `Option.getD 0` stands for the Python attribute access,
which on trades produced by `close_trade` is always set. -/
def Trade.pl (t : Trade) : ℚ := t.profitLoss.getD 0

/-- `Trade.close_trade`: record exit data and compute P&L.  (Python would
raise on a zero entry price; the claims here do not depend on that corner, so
the division is the total one of `ℚ`.) -/
def Trade.closeTrade (t : Trade) (exitPrice exitTime : ℚ)
    (reason : String) : Trade :=
  let priceChange := (exitPrice - t.entryPrice) / t.entryPrice
  { t with
    exitPrice := some exitPrice
    exitTime := some exitTime
    exitReason := some reason
    profitLossPct := some (priceChange * 100)
    profitLoss := some (priceChange * t.positionSize) }

/-! ## backtester.py: drawdown and metrics (`BacktestResult`) -/

/-- Division as Python performs it: a zero denominator is a
`ZeroDivisionError`, modelled as `none`. -/
def safeDiv (a b : ℚ) : Option ℚ := if b = 0 then none else some (a / b)

/-- The equity walk of `_calculate_drawdown` (backtester.py 126-151): state is
(equity, peak, max drawdown); open trades are skipped; each closed trade adds
its fractional P&L, updates the running peak, and evaluates
`(peak - equity) / peak` — the one division in the aggregator that Python does
not guard, hence `safeDiv`. -/
def ddFold : List Trade → ℚ × ℚ × ℚ → Option (ℚ × ℚ × ℚ)
  | [], s => some s
  | t :: ts, s =>
    if t.isOpen then ddFold ts s
    else
      let equity := s.1 + t.pl
      let peak := if s.2.1 < equity then equity else s.2.1
      match safeDiv (peak - equity) peak with
      | none => none
      | some drawdown =>
          ddFold ts (equity, peak, if s.2.2 < drawdown then drawdown else s.2.2)

/-- `_calculate_drawdown`: maximum drawdown of the equity curve that starts at
1.0. -/
def calcDrawdown (trades : List Trade) : Option ℚ :=
  if trades.isEmpty then some 0
  else (ddFold trades (1, 1, 0)).map fun s => s.2.2

/-- The running equity values after each closed trade (the equity curve the
drawdown walk traverses), for stating concrete drawdown facts. -/
def equityCurve (trades : List Trade) : List ℚ :=
  (((trades.filter fun t => !t.isOpen).map Trade.pl).scanl (· + ·) 1).tail

/-- The closed-trade subset (`[t for t in self.trades if not t.is_open()]`). -/
def closedOf (trades : List Trade) : List Trade :=
  trades.filter fun t => !t.isOpen

/-- Winning trades: closed trades with `profit_loss > 0`. -/
def winsOf (trades : List Trade) : List Trade :=
  (closedOf trades).filter fun t => decide (0 < t.pl)

/-- Losing trades: closed trades with `profit_loss <= 0`. -/
def lossesOf (trades : List Trade) : List Trade :=
  (closedOf trades).filter fun t => decide (t.pl ≤ 0)

/-- Gross profit: sum of winning trades' P&L. -/
def grossProfitOf (trades : List Trade) : ℚ :=
  ((winsOf trades).map Trade.pl).sum

/-- Gross loss: absolute value of the losing trades' P&L sum. -/
def grossLossOf (trades : List Trade) : ℚ :=
  |((lossesOf trades).map Trade.pl).sum|

/-- The profit factor is a ratio or the sentinel `float('inf')`. -/
inductive ProfitFactor where
  | finite (value : ℚ)
  | infinite
deriving DecidableEq

/-- The performance-metric set of `BacktestResult._calculate_metrics`.
The Sharpe ratio is omitted: it multiplies by the irrational `sqrt 365`, so it
lives outside this rational embedding (its zero-denominator guard has the same
`if std == 0 / len < 2 → 0` shape as the fields below). -/
structure BacktestMetrics where
  totalTrades : ℕ
  winningTrades : ℕ
  losingTrades : ℕ
  winRate : ℚ
  grossProfit : ℚ
  grossLoss : ℚ
  netProfit : ℚ
  profitFactor : ProfitFactor
  totalReturn : ℚ
  totalReturnPct : ℚ
  avgWin : ℚ
  avgLoss : ℚ
  avgWinPct : ℚ
  avgLossPct : ℚ
  maxDrawdown : ℚ
  maxDrawdownPct : ℚ
  avgTradeDurationHours : ℚ
deriving DecidableEq

/-- `_init_empty_metrics`: every metric at its zero default. -/
def emptyMetrics : BacktestMetrics where
  totalTrades := 0
  winningTrades := 0
  losingTrades := 0
  winRate := 0
  grossProfit := 0
  grossLoss := 0
  netProfit := 0
  profitFactor := ProfitFactor.finite 0
  totalReturn := 0
  totalReturnPct := 0
  avgWin := 0
  avgLoss := 0
  avgWinPct := 0
  avgLossPct := 0
  maxDrawdown := 0
  maxDrawdownPct := 0
  avgTradeDurationHours := 0

/-- The metric record built by the main branch of `_calculate_metrics`
(backtester.py 72-103), given the already-computed maximum drawdown.  Each
ratio keeps the guard of the corresponding Python ternary
(`a / b if b > 0 else 0`, `gp / gl if gl > 0 else inf`,
`np.mean(xs) if xs else 0`). -/
def mkMetrics (trades : List Trade) (maxDD : ℚ) : BacktestMetrics where
  totalTrades := (closedOf trades).length
  winningTrades := (winsOf trades).length
  losingTrades := (lossesOf trades).length
  winRate :=
    if 0 < (closedOf trades).length then
      ((winsOf trades).length : ℚ) / ((closedOf trades).length : ℚ)
    else 0
  grossProfit := grossProfitOf trades
  grossLoss := grossLossOf trades
  netProfit := grossProfitOf trades - grossLossOf trades
  profitFactor :=
    if 0 < grossLossOf trades then
      ProfitFactor.finite (grossProfitOf trades / grossLossOf trades)
    else ProfitFactor.infinite
  totalReturn := grossProfitOf trades - grossLossOf trades
  totalReturnPct := (grossProfitOf trades - grossLossOf trades) / 1 * 100
  avgWin :=
    if 0 < (winsOf trades).length then
      grossProfitOf trades / ((winsOf trades).length : ℚ)
    else 0
  avgLoss :=
    if 0 < (lossesOf trades).length then
      grossLossOf trades / ((lossesOf trades).length : ℚ)
    else 0
  avgWinPct :=
    if (winsOf trades).isEmpty then 0
    else ((winsOf trades).map fun t => t.profitLossPct.getD 0).sum /
      ((winsOf trades).length : ℚ)
  avgLossPct :=
    if (lossesOf trades).isEmpty then 0
    else ((lossesOf trades).map fun t => t.profitLossPct.getD 0).sum /
      ((lossesOf trades).length : ℚ)
  maxDrawdown := maxDD
  maxDrawdownPct := maxDD * 100
  avgTradeDurationHours :=
    if (closedOf trades).isEmpty then 0
    else ((closedOf trades).map fun t => t.exitTime.getD 0 - t.entryTime).sum /
      ((closedOf trades).length : ℚ)

/-- `BacktestResult._calculate_metrics`: empty or all-open trade lists take
the zero-default branches; otherwise the metric record is built, `none`
signalling the `ZeroDivisionError` that an unguarded division would raise. -/
def calculateMetrics (trades : List Trade) : Option BacktestMetrics :=
  if trades.isEmpty then some emptyMetrics
  else if (closedOf trades).isEmpty then some emptyMetrics
  else (calcDrawdown trades).map (mkMetrics trades)

/-! ## Theorems for the drawdown scenario (C1) -/

/-- A closed trade carrying the given fractional P&L. -/
def mkClosedTrade (p : ℚ) : Trade where
  symbol := "T"
  entryPrice := 1
  entryTime := 0
  positionSize := 1
  stopLoss := 0
  takeProfit := 0
  exitPrice := some 1
  exitTime := some 1
  exitReason := some "closed"
  profitLoss := some p
  profitLossPct := some (p * 100)

/-- The trade list of the drawdown scenario: closed trades with fractional
P&L +0.10, −0.05, +0.02, −0.20, +0.08 in that order. -/
def drawdownScenarioTrades : List Trade :=
  [mkClosedTrade (1/10), mkClosedTrade (-1/20), mkClosedTrade (1/50),
    mkClosedTrade (-1/5), mkClosedTrade (2/25)]

/-- C1 (counterexample): on the scenario list the additive equity walk of
`_calculate_drawdown` reports a maximum drawdown of 23/110 ≈ 0.2091, not 0.20,
and neither the claimed peak 1.12 nor the claimed trough 0.896 ever occurs on
the equity curve. -/
theorem drawdown_scenario_not_twenty_percent :
    calcDrawdown drawdownScenarioTrades = some (23/110) ∧
    (23/110 : ℚ) ≠ 1/5 ∧
    (28/25 : ℚ) ∉ equityCurve drawdownScenarioTrades ∧
    (112/125 : ℚ) ∉ equityCurve drawdownScenarioTrades := by
  refine ⟨?_, by norm_num, ?_, ?_⟩ <;>
    norm_num [calcDrawdown, ddFold, equityCurve, drawdownScenarioTrades,
      mkClosedTrade, Trade.isOpen, Trade.pl, safeDiv, List.scanl]

/-- C1 (amended): the scenario list yields a maximum drawdown of 23/110
(≈ 20.9%, reported as `max_drawdown_pct` ≈ 20.9), computed on the equity curve
1.10, 1.05, 1.07, 0.87, 0.95 — from the running peak 1.10 down to the equity
0.87. -/
theorem drawdown_scenario_amended :
    calcDrawdown drawdownScenarioTrades = some (23/110) ∧
    equityCurve drawdownScenarioTrades =
      [11/10, 21/20, 107/100, 87/100, 19/20] ∧
    ((11/10 : ℚ) - 87/100) / (11/10) = 23/110 := by
  refine ⟨?_, ?_, by norm_num⟩ <;>
    norm_num [calcDrawdown, ddFold, equityCurve, drawdownScenarioTrades,
      mkClosedTrade, Trade.isOpen, Trade.pl, safeDiv, List.scanl]

/-! ## Theorems for the metric guards (C8) -/

/-- `safeDiv` with a nonzero denominator is ordinary division. -/
theorem safeDiv_of_ne {a b : ℚ} (h : b ≠ 0) : safeDiv a b = some (a / b) := by
  simp [safeDiv, h]

/-- The drawdown walk never divides by zero: its running peak starts at 1 and
never decreases, so it stays positive. -/
theorem ddFold_isSome (ts : List Trade) :
    ∀ s : ℚ × ℚ × ℚ, 0 < s.2.1 → ∃ r, ddFold ts s = some r := by
  induction ts with
  | nil => exact fun s _ => ⟨s, rfl⟩
  | cons t ts ih =>
    intro s hs
    simp only [ddFold]
    by_cases ho : t.isOpen
    · rw [if_pos ho]
      exact ih s hs
    · rw [if_neg ho]
      set equity := s.1 + t.pl with he
      set peak := if s.2.1 < equity then equity else s.2.1 with hp
      have hpeak : 0 < peak := by
        rw [hp]
        split_ifs with h
        · linarith
        · exact hs
      rw [safeDiv_of_ne (ne_of_gt hpeak)]
      exact ih (equity, peak,
        if s.2.2 < (peak - equity) / peak then (peak - equity) / peak
        else s.2.2) hpeak

/-- `calcDrawdown` always produces a value. -/
theorem calcDrawdown_isSome (trades : List Trade) :
    ∃ d, calcDrawdown trades = some d := by
  by_cases h : trades.isEmpty
  · exact ⟨0, by simp [calcDrawdown, h]⟩
  · obtain ⟨r, hr⟩ := ddFold_isSome trades (1, 1, 0) (by norm_num)
    exact ⟨r.2.2, by simp [calcDrawdown, h, hr]⟩

/-- C8: computing the metrics never hits a zero denominator: a value is
always produced; with no closed trades every metric takes its zero default;
otherwise the win rate is winners/total, and the profit factor is gross
profit / gross loss when the gross loss is positive and the infinite sentinel
when it is zero. -/
theorem metrics_guard_zero_denominators (trades : List Trade) :
    ∃ m, calculateMetrics trades = some m ∧
      (closedOf trades = [] → m = emptyMetrics) ∧
      (closedOf trades ≠ [] →
        m.winRate =
          ((winsOf trades).length : ℚ) / ((closedOf trades).length : ℚ)) ∧
      (closedOf trades ≠ [] → 0 < grossLossOf trades →
        m.profitFactor =
          ProfitFactor.finite (grossProfitOf trades / grossLossOf trades)) ∧
      (closedOf trades ≠ [] → grossLossOf trades = 0 →
        m.profitFactor = ProfitFactor.infinite) := by
  by_cases h1 : trades.isEmpty
  · have ht : trades = [] := by simpa using h1
    have hc : closedOf trades = [] := by simp [closedOf, ht]
    refine ⟨emptyMetrics, by simp [calculateMetrics, h1], fun _ => rfl,
      fun hne => absurd hc hne, fun hne => absurd hc hne,
      fun hne => absurd hc hne⟩
  · by_cases h2 : (closedOf trades).isEmpty
    · have hc : closedOf trades = [] := by simpa using h2
      refine ⟨emptyMetrics, by simp [calculateMetrics, h1, h2],
        fun _ => rfl, fun hne => absurd hc hne, fun hne => absurd hc hne,
        fun hne => absurd hc hne⟩
    · obtain ⟨d, hd⟩ := calcDrawdown_isSome trades
      refine ⟨mkMetrics trades d, by simp [calculateMetrics, h1, h2, hd],
        ?_, ?_, ?_, ?_⟩
      · intro hc
        exact absurd (by simp [hc]) h2
      · intro hne
        have hlen : 0 < (closedOf trades).length := List.length_pos.mpr hne
        simp [mkMetrics, hlen]
      · intro _ hgl
        simp [mkMetrics, hgl]
      · intro _ hgl
        simp [mkMetrics, hgl]

/-- Two closed trades, one winner (+0.10) and one loser (−0.05). -/
def metricsWitnessTrades : List Trade :=
  [mkClosedTrade (1/10), mkClosedTrade (-1/20)]

/-- C8 witness: on a list with one winner and one loser the metrics exist and
the win rate is 1/2. -/
theorem metrics_guard_witness :
    ∃ m, calculateMetrics metricsWitnessTrades = some m ∧ m.winRate = 1/2 := by
  obtain ⟨m, hm, -, hwr, -, -⟩ :=
    metrics_guard_zero_denominators metricsWitnessTrades
  refine ⟨m, hm, ?_⟩
  rw [hwr (by simp [closedOf, metricsWitnessTrades, mkClosedTrade,
    Trade.isOpen])]
  norm_num [winsOf, closedOf, metricsWitnessTrades, mkClosedTrade,
    Trade.isOpen, Trade.pl]

/-! ## backtester.py: the trade simulator (`CryptoBacktester`)

Randomness: every call to `np.random.random()` or `np.random.uniform(a, b)`
draws from an injected stream `g : ℕ → ℚ` at the next unused index
(`uniform(a, b)` as the affine image `a + (b - a) * draw`).  The claims hold
for every stream. -/

/-- The fields of a recommendation's `coin_data` dict that
`simulate_recommendation_strategy` and `_simulate_trade_outcome` read;
`Option` models keys read with `dict.get(key, default)`. -/
structure CoinData where
  price : ℚ
  change24h : ℚ
  enhancedScore : Option ℚ := none
  compositeScore : Option ℚ := none
  washTradingSuspicious : Bool := false
  kellyPositionSize : Option ℚ := none
deriving DecidableEq

/-- `CryptoBacktester._simulate_trade_outcome` (backtester.py 295-356):
win probability from momentum, score and wash-suspicion adjustments clipped to
`[0.2, 0.8]`, then the drawn outcome.  Returns ((exit price, reason), next
draw index). -/
def simulateTradeOutcome (coin : CoinData) (slPct tpPct : ℚ) (g : ℕ → ℚ)
    (k : ℕ) : (ℚ × String) × ℕ :=
  let entryPrice := coin.price
  let momentum := coin.change24h
  let baseProb : ℚ := 1/2
  let baseProb :=
    if momentum > 10 then baseProb + 15/100
    else if momentum > 5 then baseProb + 10/100
    else if momentum < -10 then baseProb - 15/100
    else baseProb
  let enhancedScore := coin.enhancedScore.getD (coin.compositeScore.getD 50)
  let baseProb :=
    if enhancedScore > 75 then baseProb + 10/100
    else if enhancedScore > 60 then baseProb + 5/100
    else baseProb
  let baseProb :=
    if coin.washTradingSuspicious then baseProb - 20/100 else baseProb
  let winProb := min (max baseProb (2/10)) (8/10)
  if g k < winProb then
    if g (k+1) < 7/10 then ((entryPrice * (1 + tpPct), "Take Profit"), k+2)
    else
      let partialGain := 5/100 + (tpPct - 5/100) * g (k+2)
      ((entryPrice * (1 + partialGain), "Partial Profit"), k+3)
  else
    if g (k+1) < 6/10 then ((entryPrice * (1 - slPct), "Stop Loss"), k+2)
    else
      let partialLoss := 2/100 + (slPct - 2/100) * g (k+2)
      ((entryPrice * (1 - partialLoss), "Partial Loss"), k+3)

/-- The loop of `simulate_recommendation_strategy` (backtester.py 266-292):
one trade per recommendation, created open and closed immediately with the
simulated outcome; `t0` stands for `datetime.now()`, in hours. -/
def simulateGo (holdPeriodHours slPct tpPct : ℚ) (g : ℕ → ℚ) (t0 : ℚ) :
    List (String × CoinData) → ℕ → List Trade
  | [], _ => []
  | (symbol, coin) :: rest, k =>
    let entryPrice := coin.price
    let entryTime := t0
    let positionSize := coin.kellyPositionSize.getD (5/100)
    let slPrice := entryPrice * (1 - slPct)
    let tpPrice := entryPrice * (1 + tpPct)
    let trade : Trade :=
      { symbol := symbol, entryPrice := entryPrice, entryTime := entryTime,
        positionSize := positionSize, stopLoss := slPrice,
        takeProfit := tpPrice }
    let outcome := simulateTradeOutcome coin slPct tpPct g k
    let exitTime := entryTime + holdPeriodHours
    trade.closeTrade outcome.1.1 exitTime outcome.1.2 ::
      simulateGo holdPeriodHours slPct tpPct g t0 rest outcome.2

/-- `CryptoBacktester.simulate_recommendation_strategy`. -/
def simulateRecommendationStrategy
    (recommendations : List (String × CoinData))
    (holdPeriodHours slPct tpPct : ℚ) (g : ℕ → ℚ) (t0 : ℚ) : List Trade :=
  simulateGo holdPeriodHours slPct tpPct g t0 recommendations 0

/-- Every trade built by the simulator loop is closed, and one trade is
produced per recommendation. -/
theorem simulateGo_closed (holdPeriodHours slPct tpPct : ℚ) (g : ℕ → ℚ)
    (t0 : ℚ) :
    ∀ (recs : List (String × CoinData)) (k : ℕ),
      (∀ t ∈ simulateGo holdPeriodHours slPct tpPct g t0 recs k,
        t.isOpen = false ∧ t.exitPrice.isSome = true ∧
          t.exitTime.isSome = true ∧ t.exitReason.isSome = true) ∧
      (simulateGo holdPeriodHours slPct tpPct g t0 recs k).length =
        recs.length := by
  intro recs
  induction recs with
  | nil => exact fun k => ⟨by simp [simulateGo], by simp [simulateGo]⟩
  | cons rc rest ih =>
    intro k
    obtain ⟨rsym, rcoin⟩ := rc
    constructor
    · intro t ht
      simp only [simulateGo, List.mem_cons] at ht
      rcases ht with h | h
      · subst h
        simp [Trade.closeTrade, Trade.isOpen]
      · exact (ih _).1 t h
    · simp only [simulateGo, List.length_cons]
      rw [(ih _).2]

/-- C10: for every candidate list, parameter choice, and random stream, every
trade returned by the simulator has exit price, exit time and exit reason set
(`is_open` is false), so the closed-trade subset the metrics are computed from
is the whole list and the no-closed-trades zero-default branch is never taken
for a nonempty candidate list. -/
theorem simulator_closes_every_trade
    (recommendations : List (String × CoinData))
    (holdPeriodHours slPct tpPct : ℚ) (g : ℕ → ℚ) (t0 : ℚ) :
    (∀ t ∈ simulateRecommendationStrategy recommendations holdPeriodHours
        slPct tpPct g t0,
      t.isOpen = false ∧ t.exitPrice.isSome = true ∧
        t.exitTime.isSome = true ∧ t.exitReason.isSome = true) ∧
    closedOf (simulateRecommendationStrategy recommendations holdPeriodHours
        slPct tpPct g t0) =
      simulateRecommendationStrategy recommendations holdPeriodHours slPct
        tpPct g t0 ∧
    (simulateRecommendationStrategy recommendations holdPeriodHours slPct
        tpPct g t0).length = recommendations.length := by
  have h := simulateGo_closed holdPeriodHours slPct tpPct g t0
    recommendations 0
  refine ⟨h.1, ?_, h.2⟩
  refine List.filter_eq_self.mpr fun t ht => ?_
  rw [(h.1 t ht).1]
  rfl

/-- A candidate with price 100 and no optional keys set. -/
def demoCoin : CoinData where
  price := 100
  change24h := 0

/-- A one-candidate recommendation list. -/
def demoRecommendations : List (String × CoinData) := [("BTC", demoCoin)]

/-- A constant random stream. -/
def halfStream : ℕ → ℚ := fun _ => 1/2

/-- The trade the simulator produces for `demoRecommendations` under
`halfStream` (the loss branch hits the stop loss at 90). -/
def demoSimTrade : Trade where
  symbol := "BTC"
  entryPrice := 100
  entryTime := 0
  positionSize := 1/20
  stopLoss := 90
  takeProfit := 120
  exitPrice := some 90
  exitTime := some 24
  exitReason := some "Stop Loss"
  profitLoss := some (-1/200)
  profitLossPct := some (-10)

/-- C10 witness: the concrete simulated trade is closed. -/
theorem simulator_closes_witness : demoSimTrade.isOpen = false :=
  ((simulator_closes_every_trade demoRecommendations 24 (1/10) (1/5)
      halfStream 0).1 demoSimTrade
    (by norm_num [simulateRecommendationStrategy, simulateGo,
      simulateTradeOutcome, demoRecommendations, demoCoin, halfStream,
      Trade.closeTrade, demoSimTrade])).1

/-! ## Ranking queries (analyzer.py 297-341, enhanced_analyzer.py 521-567)

A scored dataframe is a list of rows; `idx` is the row's positional index in
the dataframe.  `df.nlargest(n, col)` (default `keep='first'`) is the first
`n` rows of the stable descending sort on `col`: ties keep their original
dataframe order. -/

/-- A scored row with the columns the ranking queries read. -/
structure ScoredRow where
  idx : ℕ
  compositeScore : ℚ
  enhancedScore : ℚ
  onBinance : Bool
  contractAddress : String
  hasFutures : Bool
  washSuspicious : Bool
  washConfidence : ℚ
deriving DecidableEq

/-- Descending preorder on the legacy composite score, the sort key of
`nlargest(n, 'composite_score')`. -/
def byComposite (a b : ScoredRow) : Prop :=
  b.compositeScore ≤ a.compositeScore

instance : DecidableRel byComposite := fun a b =>
  inferInstanceAs (Decidable (b.compositeScore ≤ a.compositeScore))

instance : IsTotal ScoredRow byComposite :=
  ⟨fun a b => le_total b.compositeScore a.compositeScore⟩

instance : IsTrans ScoredRow byComposite :=
  ⟨fun _ _ _ hab hbc => le_trans hbc hab⟩

/-- Descending preorder on the enhanced composite score, the sort key of
`nlargest(n, 'enhanced_composite_score')`. -/
def byEnhanced (a b : ScoredRow) : Prop :=
  b.enhancedScore ≤ a.enhancedScore

instance : DecidableRel byEnhanced := fun a b =>
  inferInstanceAs (Decidable (b.enhancedScore ≤ a.enhancedScore))

instance : IsTotal ScoredRow byEnhanced :=
  ⟨fun a b => le_total b.enhancedScore a.enhancedScore⟩

instance : IsTrans ScoredRow byEnhanced :=
  ⟨fun _ _ _ hab hbc => le_trans hbc hab⟩

/-- `df.nlargest(n, col)` with `keep='first'`: stable descending sort, then
the first `n` rows. -/
def nlargestBy (r : ScoredRow → ScoredRow → Prop) [DecidableRel r] (n : ℕ)
    (rows : List ScoredRow) : List ScoredRow :=
  (rows.insertionSort r).take n

/-- `CryptoAnalyzer.get_top_high_risk_coins`. -/
def getTopHighRiskCoins (rows : List ScoredRow) (n : ℕ) : List ScoredRow :=
  if rows.isEmpty then [] else nlargestBy byComposite n rows

/-- The safety pre-filter of the enhanced queries: keep a row when it is not
wash-trading-suspicious or its confidence is below 30. -/
def passesSafety (r : ScoredRow) : Bool :=
  !r.washSuspicious || decide (r.washConfidence < 30)

/-- `EnhancedCryptoAnalyzer.get_top_by_category`: safety pre-filter, category
filter (spot / futures / web3, anything else empty), then ranking by the
enhanced score; every empty intermediate result short-circuits to `[]`. -/
def getTopByCategory (category : String) (rows : List ScoredRow) (n : ℕ) :
    List ScoredRow :=
  if rows.isEmpty then []
  else
    let safeCoins := rows.filter passesSafety
    if safeCoins.isEmpty then []
    else
      let filtered :=
        if category = "spot" then
          safeCoins.filter fun r =>
            r.onBinance && decide (r.contractAddress = "")
        else if category = "futures" then
          safeCoins.filter fun r => r.hasFutures
        else if category = "web3" then
          safeCoins.filter fun r => decide (r.contractAddress ≠ "")
        else []
      if filtered.isEmpty then []
      else nlargestBy byEnhanced n filtered

/-- The stable-descending order the ranking claim asserts: strictly higher
composite score first, ties in original dataframe order. -/
def compositeLex (a b : ScoredRow) : Prop :=
  b.compositeScore < a.compositeScore ∨
    (a.compositeScore = b.compositeScore ∧ a.idx < b.idx)

/-- Inserting a row whose index precedes (on score ties) every index of an
already stably-ordered sorted list keeps the list stably ordered. -/
theorem pairwise_lex_orderedInsert (a : ScoredRow) (l : List ScoredRow)
    (hs : l.Sorted byComposite) (hp : l.Pairwise compositeLex)
    (ha : ∀ b ∈ l, a.compositeScore = b.compositeScore → a.idx < b.idx) :
    (l.orderedInsert byComposite a).Pairwise compositeLex := by
  induction l with
  | nil => simp [List.orderedInsert]
  | cons b l ih =>
    by_cases h : byComposite a b
    · rw [List.orderedInsert, if_pos h]
      refine List.Pairwise.cons ?_ hp
      intro c hc
      have hcb : c.compositeScore ≤ a.compositeScore := by
        rcases List.mem_cons.mp hc with rfl | hcl
        · exact h
        · exact le_trans (List.rel_of_sorted_cons hs c hcl) h
      rcases lt_or_eq_of_le hcb with hlt | heq
      · exact Or.inl hlt
      · exact Or.inr ⟨heq.symm, ha c hc heq.symm⟩
    · rw [List.orderedInsert, if_neg h]
      have hab : a.compositeScore < b.compositeScore := by
        unfold byComposite at h
        push_neg at h
        exact h
      refine List.Pairwise.cons ?_
        (ih hs.of_cons (List.Pairwise.of_cons hp)
          fun c hcl heq => ha c (List.mem_cons_of_mem b hcl) heq)
      intro c hc
      rcases (List.mem_orderedInsert byComposite).mp hc with rfl | hcl
      · exact Or.inl hab
      · exact (List.pairwise_cons.mp hp).1 c hcl

/-- The stable descending sort of a batch with strictly increasing dataframe
indices is stably ordered: higher scores first, ties in input order. -/
theorem pairwise_lex_insertionSort (l : List ScoredRow)
    (h : l.Pairwise fun a b => a.idx < b.idx) :
    (l.insertionSort byComposite).Pairwise compositeLex := by
  induction l with
  | nil => simp
  | cons a l ih =>
    rw [List.insertionSort]
    refine pairwise_lex_orderedInsert a _
      (List.sorted_insertionSort byComposite l)
      (ih (List.Pairwise.of_cons h)) ?_
    intro b hb _
    exact (List.pairwise_cons.mp h).1 b
      ((List.mem_insertionSort byComposite).mp hb)

/-- C6: for a scored batch with strictly increasing dataframe indices, the
top-N query returns exactly `min n (len rows)` rows, sorted by descending
composite score with ties in original input order (it is a stable sort), and
the empty batch yields the empty list. -/
theorem rank_sorted_stable_length (rows : List ScoredRow) (n : ℕ)
    (hidx : rows.Pairwise fun a b => a.idx < b.idx) :
    (getTopHighRiskCoins rows n).length = min n rows.length ∧
    (getTopHighRiskCoins rows n).Pairwise
      (fun a b => b.compositeScore ≤ a.compositeScore) ∧
    (getTopHighRiskCoins rows n).Pairwise compositeLex ∧
    (rows = [] → getTopHighRiskCoins rows n = []) := by
  by_cases he : rows.isEmpty
  · have hrows : rows = [] := by simpa using he
    subst hrows
    simp [getTopHighRiskCoins]
  · have hlex : (getTopHighRiskCoins rows n).Pairwise compositeLex := by
      rw [getTopHighRiskCoins, if_neg he, nlargestBy]
      exact List.Pairwise.sublist (List.take_sublist n _)
        (pairwise_lex_insertionSort rows hidx)
    refine ⟨?_, ?_, hlex, fun hrows => absurd (by rw [hrows]; rfl) he⟩
    · rw [getTopHighRiskCoins, if_neg he, nlargestBy, List.length_take,
        List.length_insertionSort]
    · exact hlex.imp fun hab =>
        hab.elim le_of_lt fun hq => le_of_eq hq.1.symm

/-- Three rows, the middle one strictly best, the outer two tied. -/
def rankDemoRows : List ScoredRow :=
  [⟨0, 50, 50, true, "", false, false, 0⟩,
    ⟨1, 70, 70, true, "", false, false, 0⟩,
    ⟨2, 50, 50, true, "", false, false, 0⟩]

/-- C6 witness: the top-2 query on the three-row demo batch returns
`min 2 3` rows. -/
theorem rank_sorted_stable_witness :
    (getTopHighRiskCoins rankDemoRows 2).length = min 2 rankDemoRows.length :=
  (rank_sorted_stable_length rankDemoRows 2 (by decide)).1

/-- Reduction of `get_top_by_category` at the category string "spot". -/
theorem getTopByCategory_spot (rows : List ScoredRow) (n : ℕ) :
    getTopByCategory "spot" rows n =
      if rows.isEmpty then []
      else if (rows.filter passesSafety).isEmpty then []
      else if ((rows.filter passesSafety).filter fun r =>
          r.onBinance && decide (r.contractAddress = "")).isEmpty then []
      else nlargestBy byEnhanced n ((rows.filter passesSafety).filter fun r =>
        r.onBinance && decide (r.contractAddress = "")) := by
  rfl

/-- C7: every row returned by the "spot" category query is exchange-listed
with an empty contract address and passes the safety pre-filter (it is not
wash-trading-suspicious with confidence ≥ 30); and when no row qualifies the
query returns the empty list. -/
theorem spot_category_safety (rows : List ScoredRow) (n : ℕ) :
    (∀ r ∈ getTopByCategory "spot" rows n,
      r.onBinance = true ∧ r.contractAddress = "" ∧
        ¬(r.washSuspicious = true ∧ 30 ≤ r.washConfidence)) ∧
    ((∀ r ∈ rows, ¬(passesSafety r = true ∧ r.onBinance = true ∧
        r.contractAddress = "")) →
      getTopByCategory "spot" rows n = []) := by
  constructor
  · intro r hr
    rw [getTopByCategory_spot] at hr
    split_ifs at hr
    iterate 3 exact absurd hr (List.not_mem_nil r)
    have hmem : r ∈ (rows.filter passesSafety).filter fun r =>
        r.onBinance && decide (r.contractAddress = "") := by
      rw [nlargestBy] at hr
      exact (List.mem_insertionSort byEnhanced).mp (List.mem_of_mem_take hr)
    rw [List.mem_filter] at hmem
    obtain ⟨hsafe, hcat⟩ := hmem
    rw [List.mem_filter] at hsafe
    obtain ⟨-, hsafeb⟩ := hsafe
    rw [Bool.and_eq_true] at hcat
    obtain ⟨hb, hc⟩ := hcat
    refine ⟨hb, of_decide_eq_true hc, ?_⟩
    rintro ⟨hsusp, hconf⟩
    rw [passesSafety, hsusp] at hsafeb
    simp at hsafeb
    linarith
  · intro hall
    rw [getTopByCategory_spot]
    split_ifs with h1 h2 h3
    · rfl
    · rfl
    · rfl
    · exfalso
      have hne : (rows.filter passesSafety).filter (fun r =>
          r.onBinance && decide (r.contractAddress = "")) ≠ [] := by
        simpa using h3
      obtain ⟨r, hr⟩ := List.exists_mem_of_ne_nil _ hne
      rw [List.mem_filter] at hr
      obtain ⟨hrs, hrcat⟩ := hr
      rw [List.mem_filter] at hrs
      obtain ⟨hrl, hrsafe⟩ := hrs
      rw [Bool.and_eq_true] at hrcat
      exact hall r hrl ⟨hrsafe, hrcat.1, of_decide_eq_true hrcat.2⟩

/-- A native exchange-listed row that passes the safety filter. -/
def spotDemoRow : ScoredRow := ⟨0, 50, 50, true, "", false, false, 0⟩

/-- C7 witness: the demo spot row is returned by the "spot" query and indeed
satisfies all three guarantees. -/
theorem spot_category_safety_witness :
    spotDemoRow.onBinance = true ∧ spotDemoRow.contractAddress = "" ∧
      ¬(spotDemoRow.washSuspicious = true ∧ 30 ≤ spotDemoRow.washConfidence) :=
  (spot_category_safety [spotDemoRow] 5).1 spotDemoRow (by decide)

/-! ## Kelly position sizing (enhanced_analyzer.py 315-346, 387-389) -/

/-- `EnhancedCryptoAnalyzer._calculate_kelly_position_size`: full Kelly from
the win rate and payoff averages, fractional variants, caps, and the returned
moderate Kelly floored at 0. -/
def kellyPositionSize (winRate avgWin avgLoss : ℚ) : ℚ :=
  if winRate ≤ 0 ∨ 1 ≤ winRate ∨ avgWin ≤ 0 ∨ avgLoss ≤ 0 then 0
  else
    let kelly := (winRate * avgWin - (1 - winRate) * avgLoss) / avgWin
    let conservativeKelly := kelly * (25/100)
    let moderateKelly := kelly * (5/10)
    let kellyCapped := min kelly (10/100)
    let conservativeCapped := min conservativeKelly (5/100)
    let moderateCapped := min moderateKelly (75/1000)
    max 0 moderateCapped

/-- `calculate_comprehensive_scores` line 389: the scalar
`_calculate_kelly_position_size(0.60, 1.5, 1.0)` is broadcast into the
`kelly_position_size` column of every row. -/
def scoredKellyColumn (rows : List NormRow) : List ℚ :=
  rows.map fun _ => kellyPositionSize (60/100) (15/10) 1

/-- C9: with the hardcoded triple (0.60, 1.5, 1.0) the full Kelly is 1/3, the
moderate (half) Kelly 1/6 is capped to exactly 0.075, and every row of every
scored batch receives that same constant 0.075. -/
theorem kelly_position_size_constant :
    kellyPositionSize (60/100) (15/10) 1 = 75/1000 ∧
    ((60/100 : ℚ) * (15/10) - (1 - 60/100) * 1) / (15/10) = 1/3 ∧
    min ((1/3 : ℚ) * (5/10)) (75/1000) = 75/1000 ∧
    ∀ (rows : List NormRow), ∀ x ∈ scoredKellyColumn rows, x = 75/1000 := by
  refine ⟨?_, by norm_num, by norm_num [min_def], ?_⟩
  · norm_num [kellyPositionSize, min_def, max_def]
  · intro rows x hx
    simp only [scoredKellyColumn, List.mem_map] at hx
    obtain ⟨r, -, hxeq⟩ := hx
    rw [← hxeq]
    norm_num [kellyPositionSize, min_def, max_def]

/-- C9 witness: the constant evaluates to 0.075 and the column of a singleton
batch contains exactly that value. -/
theorem kelly_position_size_witness :
    kellyPositionSize (60/100) (15/10) 1 = 75/1000 ∧ (75/1000 : ℚ) = 75/1000 :=
  ⟨kelly_position_size_constant.1,
    kelly_position_size_constant.2.2.2 [midVolumeChangeRow] (75/1000)
      (by norm_num [scoredKellyColumn, kellyPositionSize, min_def, max_def])⟩

end CryptoEngine
